import Mathlib

/-!
Shallow embedding of the NewsBrief bookmark / news-cache layer.

Sources embedded here:
* `src/services/storage.ts` — AsyncStorage-backed helpers `saveBookmarks`,
  `loadBookmarks`, `cacheNews`, `loadCachedNews`;
* `src/store/slices/bookmarksSlice.ts` — the Redux reducers `addBookmark`,
  `removeBookmark`, `clearAllBookmarks` and the `saveBookmarksAsync` /
  `loadBookmarksAsync` thunks with their extra reducers;
* `src/store/api/newsApi.ts` — the `transformResponse` id assignment of the
  `getHeadlines` / `searchNews` / `getNewsBySource` endpoints;
* the screens (`HeadlinesScreen`, `SearchScreen`, `BookmarksScreen`) —
  `isBookmarked`, `handleBookmarkToggle`, `renderNewsItem`;
* `src/store/selectors/bookmarksSelectors.ts` — `selectIsBookmarked`.

AsyncStorage is modelled as an association list of string keys to string
values, newest write first.  `JSON.stringify` / `JSON.parse` are modelled for
the one shape the bookmark code stores — an array of strings — including the
string-escaping both directions.  Timestamps (`Date.now()`) are passed in as
explicit `Int` parameters.
-/

namespace NewsBrief

/-- AsyncStorage model: string-keyed string store, newest write first. -/
def Storage := List (String × String)

/-- AsyncStorage.getItem: first (most recent) binding for the key, if any. -/
def getItem (st : Storage) (k : String) : Option String :=
  match st with
  | [] => none
  | (k', v) :: rest => if k' = k then some v else getItem rest k

/-- AsyncStorage.setItem: record a new binding for the key (last write wins). -/
def setItem (st : Storage) (k v : String) : Storage :=
  (k, v) :: st

/-! ## JSON model for string arrays

`JSON.stringify` on an array of strings emits `["a","b"]` with each string
quoted and escaped (`"` and `\` escaped, control characters as `\b \t \n \f
\r` or `\u00XX`); `JSON.parse` inverts this. -/

/-- Lower-case hex digit character for a value below 16. -/
def hexDigitChar (n : Nat) : Char :=
  if n < 10 then Char.ofNat (48 + n) else Char.ofNat (87 + n)

/-- Numeric value of a lower-case hex digit character. -/
def hexDigitVal (c : Char) : Nat :=
  if 97 ≤ c.toNat then c.toNat - 87 else c.toNat - 48

/-- Whether a character is a lower-case-hex digit. -/
def isHexDigitCh (c : Char) : Bool :=
  (48 ≤ c.toNat && c.toNat ≤ 57) || (97 ≤ c.toNat && c.toNat ≤ 102)

/-- JSON string escaping of one character, as `JSON.stringify` performs it. -/
def escapeChar (c : Char) : List Char :=
  if c = '"' then ['\\', '"']
  else if c = '\\' then ['\\', '\\']
  else if c.toNat = 8 then ['\\', 'b']
  else if c.toNat = 9 then ['\\', 't']
  else if c.toNat = 10 then ['\\', 'n']
  else if c.toNat = 12 then ['\\', 'f']
  else if c.toNat = 13 then ['\\', 'r']
  else if c.toNat < 32 then
    ['\\', 'u', '0', '0', hexDigitChar (c.toNat / 16), hexDigitChar (c.toNat % 16)]
  else [c]

/-- JSON string escaping of a whole character sequence. -/
def escapeString (s : List Char) : List Char :=
  (s.map escapeChar).flatten

/-- A JSON string literal: opening quote, escaped body, closing quote. -/
def quoteString (s : List Char) : List Char :=
  '"' :: (escapeString s ++ ['"'])

/-- Body of `JSON.stringify` on a string array, between the brackets. -/
def serializeItems : List (List Char) → List Char
  | [] => []
  | s :: rest => quoteString s ++ (rest.map (fun t => ',' :: quoteString t)).flatten

/-- `JSON.stringify` on an array of strings (character-list level). -/
def stringifyStringList (l : List (List Char)) : List Char :=
  '[' :: (serializeItems l ++ [']'])

/-- Prepend a character to the parsed-so-far component of a parse result. -/
def consFirst (c : Char) : Option (List Char × List Char) → Option (List Char × List Char)
  | none => none
  | some (s, r) => some (c :: s, r)

/-- Parse the body of a JSON string literal up to its closing quote,
returning the unescaped content and the remaining input. -/
def parseStringBody : List Char → Option (List Char × List Char)
  | [] => none
  | c :: rest =>
    if c = '"' then some ([], rest)
    else if c = '\\' then
      match rest with
      | [] => none
      | e :: rest2 =>
        if e = '"' then consFirst '"' (parseStringBody rest2)
        else if e = '\\' then consFirst '\\' (parseStringBody rest2)
        else if e = 'b' then consFirst (Char.ofNat 8) (parseStringBody rest2)
        else if e = 't' then consFirst (Char.ofNat 9) (parseStringBody rest2)
        else if e = 'n' then consFirst (Char.ofNat 10) (parseStringBody rest2)
        else if e = 'f' then consFirst (Char.ofNat 12) (parseStringBody rest2)
        else if e = 'r' then consFirst (Char.ofNat 13) (parseStringBody rest2)
        else if e = 'u' then
          match rest2 with
          | h1 :: h2 :: h3 :: h4 :: rest3 =>
            if isHexDigitCh h1 && isHexDigitCh h2 && isHexDigitCh h3 && isHexDigitCh h4 then
              consFirst
                (Char.ofNat (((hexDigitVal h1 * 16 + hexDigitVal h2) * 16 +
                  hexDigitVal h3) * 16 + hexDigitVal h4))
                (parseStringBody rest3)
            else none
          | _ => none
        else none
    else consFirst c (parseStringBody rest)

/-- Parse the items after the first one: either the closing bracket, or a
comma followed by another string literal.  Fuel bounds the item count. -/
def parseItemsAfter (fuel : Nat) (cs : List Char) :
    Option (List (List Char) × List Char) :=
  match cs with
  | ']' :: rest => some ([], rest)
  | ',' :: '"' :: rest =>
    match fuel with
    | 0 => none
    | fuel' + 1 =>
      match parseStringBody rest with
      | none => none
      | some (s, rest') =>
        match parseItemsAfter fuel' rest' with
        | none => none
        | some (ss, rest'') => some (s :: ss, rest'')
  | _ => none

/-- `JSON.parse` restricted to the shape the bookmark code stores: an array
of strings, with nothing after the closing bracket. -/
def parseStringList (cs : List Char) : Option (List (List Char)) :=
  match cs with
  | '[' :: ']' :: rest => if rest = [] then some [] else none
  | '[' :: '"' :: rest =>
    match parseStringBody rest with
    | none => none
    | some (s, rest') =>
      match parseItemsAfter cs.length rest' with
      | none => none
      | some (ss, rest'') => if rest'' = [] then some (s :: ss) else none
  | _ => none

/-! ## storage.ts — bookmark persistence -/

/-- AsyncStorage.setItem as seen by callers: the write may fail (the
`writeFails` flag models a thrown storage error), in which case the
backing data is unchanged. -/
def asyncSetItem (st : Storage) (k v : String) (writeFails : Bool) :
    Except Unit Storage :=
  if writeFails then Except.error () else Except.ok (setItem st k v)

/-- storage.ts `saveBookmarks`: `JSON.stringify` the array and `setItem` it
under the `bookmarks` key; a thrown storage error is caught, logged and
swallowed, so the promise still resolves (never rejects). -/
def saveBookmarks (st : Storage) (bookmarks : List String) (writeFails : Bool) :
    Except Unit Storage :=
  match asyncSetItem st "bookmarks"
      (String.mk (stringifyStringList (bookmarks.map String.toList))) writeFails with
  | Except.ok st' => Except.ok st'
  | Except.error _ => Except.ok st

/-- storage.ts `loadBookmarks`: `getItem` the `bookmarks` key; a missing or
empty value yields `[]`; a parse failure is caught and yields `[]`. -/
def loadBookmarks (st : Storage) : List String :=
  match getItem st "bookmarks" with
  | none => []
  | some data =>
    if data = "" then []
    else match parseStringList data.toList with
      | some l => l.map String.mk
      | none => []

/-! ## storage.ts — news cache

`cacheNews` stores `\x7b data, timestamp \x7d` under the `news_cache` key;
`loadCachedNews` reads it back and treats an entry older than 24 hours as
expired.  The stored envelope is modelled as a typed record under that one
key (its JSON round-trip for the arbitrary payload is not re-modelled); the
generic string `Storage` above is not reused here so that the payload can
stay a type parameter. -/

/-- The parsed shape `cacheNews` stores: payload plus creation timestamp. -/
structure NewsCacheEntry (α : Type) where
  data : α
  timestamp : Int
deriving Repr, DecidableEq

/-- The `news_cache` slot of AsyncStorage: absent, or one stored entry. -/
def CacheSlot (α : Type) := Option (NewsCacheEntry α)

/-- The fixed freshness window of `loadCachedNews`: 24 hours in ms. -/
def newsCacheTTL : Int := 24 * 60 * 60 * 1000

/-- storage.ts `cacheNews`: overwrite the slot with the payload stamped at
the current time. -/
def cacheNews (news : α) (now : Int) : CacheSlot α → CacheSlot α :=
  fun _ => some ⟨news, now⟩

/-- storage.ts `loadCachedNews`: read the slot; if the entry is expired
(`now - timestamp > 24h`) return `none`, else return the payload.  The
function only reads, so the slot it leaves behind is returned unchanged. -/
def loadCachedNews (slot : CacheSlot α) (now : Int) : Option α × CacheSlot α :=
  match slot with
  | some parsed =>
    (if now - parsed.timestamp > newsCacheTTL then none else some parsed.data, slot)
  | none => (none, slot)

/-! ## bookmarksSlice.ts -/

/-- The `BookmarksState` of bookmarksSlice.ts. -/
structure BookmarksState where
  items : List String
  isLoading : Bool
  error : Option String
  lastUpdated : Option Int
deriving Repr, DecidableEq

/-- The slice's `initialState`. -/
def initialState : BookmarksState :=
  { items := [], isLoading := false, error := none, lastUpdated := none }

/-- Reducer `addBookmark`: push the id and stamp `lastUpdated` only when the
id is not already present.  `now` stands for `Date.now()`. -/
def addBookmark (s : BookmarksState) (articleId : String) (now : Int) :
    BookmarksState :=
  if s.items.contains articleId then s
  else { s with items := s.items ++ [articleId], lastUpdated := some now }

/-- Reducer `removeBookmark`: filter the id out and stamp `lastUpdated`
unconditionally. -/
def removeBookmark (s : BookmarksState) (articleId : String) (now : Int) :
    BookmarksState :=
  { s with items := s.items.filter (fun id => id ≠ articleId),
           lastUpdated := some now }

/-- Reducer `clearAllBookmarks`. -/
def clearAllBookmarks (s : BookmarksState) (now : Int) : BookmarksState :=
  { s with items := [], lastUpdated := some now }

/-- Outcome of a createAsyncThunk dispatch: fulfilled with its payload or
rejected with the `rejectWithValue` message. -/
inductive ThunkResult (α : Type) where
  | fulfilled (payload : α)
  | rejected (msg : String)
deriving Repr, DecidableEq

/-- Thunk `saveBookmarksAsync`: await `saveBookmarks`; reject only if it
throws.  Returns the outcome together with the storage it leaves behind. -/
def saveBookmarksAsync (st : Storage) (bookmarks : List String)
    (writeFails : Bool) : ThunkResult (List String) × Storage :=
  match saveBookmarks st bookmarks writeFails with
  | Except.ok st' => (ThunkResult.fulfilled bookmarks, st')
  | Except.error _ => (ThunkResult.rejected "儲存書籤失敗", st)

/-- Extra reducer for `saveBookmarksAsync.pending`. -/
def applySavePending (s : BookmarksState) : BookmarksState :=
  { s with isLoading := true, error := none }

/-- Extra reducers for `saveBookmarksAsync.fulfilled` / `.rejected`. -/
def applySaveResult (s : BookmarksState) (r : ThunkResult (List String))
    (now : Int) : BookmarksState :=
  match r with
  | ThunkResult.fulfilled bookmarks =>
    { s with isLoading := false, items := bookmarks, lastUpdated := some now }
  | ThunkResult.rejected msg =>
    { s with isLoading := false, error := some msg }

/-- Extra reducer for `loadBookmarksAsync.fulfilled`: install the loaded
items.  Applied to the slice state after a process restart this models the
"reload store from same backing data" scenario. -/
def applyLoadFulfilled (s : BookmarksState) (loaded : List String)
    (now : Int) : BookmarksState :=
  { s with isLoading := false, items := loaded, lastUpdated := some now }

/-- The bookmark state a fresh process reaches once `loadBookmarksAsync`
has completed against backing storage `st`. -/
def reloadFromStorage (st : Storage) (now : Int) : BookmarksState :=
  applyLoadFulfilled initialState (loadBookmarks st) now

/-! ## newsApi.ts — transformResponse id assignment -/

/-- The fields of a NewsAPI article the id logic looks at (an absent `url`
is modelled as the empty string, which is equally falsy in the source's
`article.url || fallback`). -/
structure RawArticle where
  url : String
  title : String
deriving Repr, DecidableEq

/-- An article after `transformResponse`: the raw fields plus the assigned
`id`. -/
structure Article where
  url : String
  title : String
  id : String
deriving Repr, DecidableEq

/-- One step of `response.articles.map((article, index) => (\x7b ...article,
id: article.url || `tag-index-now` \x7d))`: `tag` is `article-` for
getHeadlines, `search-` for searchNews, `source-` for getNewsBySource, and
`now` stands for `Date.now()`. -/
def assignId (tag : String) (now : Int) (index : Nat) (a : RawArticle) : Article :=
  { url := a.url, title := a.title,
    id := if a.url = "" then tag ++ toString index ++ "-" ++ toString now else a.url }

/-- JavaScript `Array.prototype.map` with the element index, from `i`. -/
def mapWithIndex (f : Nat → RawArticle → Article) : Nat → List RawArticle → List Article
  | _, [] => []
  | i, a :: rest => f i a :: mapWithIndex f (i + 1) rest

/-- `transformResponse` of the getHeadlines endpoint. -/
def transformHeadlines (articles : List RawArticle) (now : Int) : List Article :=
  mapWithIndex (assignId "article-" now) 0 articles

/-- `transformResponse` of the searchNews endpoint. -/
def transformSearch (articles : List RawArticle) (now : Int) : List Article :=
  mapWithIndex (assignId "search-" now) 0 articles

/-- The getHeadlines query as a whole: on fetch success the response is
transformed, on fetch failure RTK Query surfaces the error unchanged — no
cache fallback exists in this path. -/
def getHeadlines (fetchResult : Except String (List RawArticle)) (now : Int) :
    Except String (List Article) :=
  match fetchResult with
  | Except.ok articles => Except.ok (transformHeadlines articles now)
  | Except.error e => Except.error e

/-! ## Screens and selectors -/

/-- The props `renderNewsItem` hands to a `NewsCard`. -/
structure NewsCardProps where
  article : Article
  isBookmarked : Bool
deriving Repr, DecidableEq

/-- The screens' `isBookmarked` callback: `bookmarkItems.includes(articleId)`. -/
def isBookmarkedFn (bookmarkItems : List String) (articleId : String) : Bool :=
  bookmarkItems.contains articleId

/-- `renderNewsItem` of HeadlinesScreen / SearchScreen / BookmarksScreen:
the card's flag is `isBookmarked(item.id)`. -/
def renderNewsItem (bookmarkItems : List String) (item : Article) : NewsCardProps :=
  { article := item, isBookmarked := isBookmarkedFn bookmarkItems item.id }

/-- bookmarksSelectors.ts `selectIsBookmarked`: `items.includes(articleId)`. -/
def selectIsBookmarked (s : BookmarksState) (articleId : String) : Bool :=
  s.items.contains articleId

/-- HeadlinesScreen / SearchScreen `handleBookmarkToggle`: dispatch
`removeBookmark` if bookmarked, else `addBookmark` — these are the only
dispatches it issues. -/
def handleBookmarkToggle (s : BookmarksState) (articleId : String) (now : Int) :
    BookmarksState :=
  if isBookmarkedFn s.items articleId then removeBookmark s articleId now
  else addBookmark s articleId now

/-- `handleBookmarkToggle` at the level of slice state plus backing storage:
the handler dispatches only the synchronous reducers, which touch no
storage. -/
def handleBookmarkToggleApp (app : BookmarksState × Storage) (articleId : String)
    (now : Int) : BookmarksState × Storage :=
  (handleBookmarkToggle app.1 articleId now, app.2)

/-! ## Round-trip lemmas for the JSON string-array model -/

theorem hexDigitVal_hexDigitChar (n : Nat) (h : n < 16) :
    hexDigitVal (hexDigitChar n) = n := by
  interval_cases n <;> decide

theorem isHexDigitCh_hexDigitChar (n : Nat) (h : n < 16) :
    isHexDigitCh (hexDigitChar n) = true := by
  interval_cases n <;> decide

theorem getItem_setItem (st : Storage) (k v : String) :
    getItem (setItem st k v) k = some v := by
  simp [getItem, setItem]

theorem parseStringBody_escape (s : List Char) :
    ∀ tail, parseStringBody (escapeString s ++ '"' :: tail) = some (s, tail) := by
  induction s with
  | nil =>
    intro tail
    simp only [escapeString, List.map_nil, List.flatten_nil, List.nil_append]
    rw [parseStringBody.eq_def]
    simp
  | cons c cs ih =>
    intro tail
    have hs : escapeString (c :: cs) ++ '"' :: tail =
        escapeChar c ++ (escapeString cs ++ '"' :: tail) := by
      simp [escapeString]
    rw [hs]
    by_cases h1 : c = '"'
    · subst h1
      rw [show escapeChar '"' = ['\\', '"'] from rfl]
      rw [parseStringBody.eq_def]
      simp [consFirst, ih]
    by_cases h2 : c = '\\'
    · subst h2
      rw [show escapeChar '\\' = ['\\', '\\'] by simp [escapeChar]]
      rw [parseStringBody.eq_def]
      simp [consFirst, ih]
    by_cases h3 : c.toNat = 8
    · have hc : Char.ofNat 8 = c := by rw [← h3]; exact Char.ofNat_toNat c
      rw [show escapeChar c = ['\\', 'b'] by simp [escapeChar, h1, h2, h3]]
      rw [parseStringBody.eq_def]
      simp [consFirst, ih]
      exact hc
    by_cases h4 : c.toNat = 9
    · have hc : Char.ofNat 9 = c := by rw [← h4]; exact Char.ofNat_toNat c
      rw [show escapeChar c = ['\\', 't'] by simp [escapeChar, h1, h2, h3, h4]]
      rw [parseStringBody.eq_def]
      simp [consFirst, ih]
      exact hc
    by_cases h5 : c.toNat = 10
    · have hc : Char.ofNat 10 = c := by rw [← h5]; exact Char.ofNat_toNat c
      rw [show escapeChar c = ['\\', 'n'] by simp [escapeChar, h1, h2, h3, h4, h5]]
      rw [parseStringBody.eq_def]
      simp [consFirst, ih]
      exact hc
    by_cases h6 : c.toNat = 12
    · have hc : Char.ofNat 12 = c := by rw [← h6]; exact Char.ofNat_toNat c
      rw [show escapeChar c = ['\\', 'f'] by simp [escapeChar, h1, h2, h3, h4, h5, h6]]
      rw [parseStringBody.eq_def]
      simp [consFirst, ih]
      exact hc
    by_cases h7 : c.toNat = 13
    · have hc : Char.ofNat 13 = c := by rw [← h7]; exact Char.ofNat_toNat c
      rw [show escapeChar c = ['\\', 'r'] by simp [escapeChar, h1, h2, h3, h4, h5, h6, h7]]
      rw [parseStringBody.eq_def]
      simp [consFirst, ih]
      exact hc
    by_cases h8 : c.toNat < 32
    · have hdiv : c.toNat / 16 < 16 := by omega
      have hmod : c.toNat % 16 < 16 := Nat.mod_lt _ (by omega)
      have hval : ((hexDigitVal '0' * 16 + hexDigitVal '0') * 16 +
          hexDigitVal (hexDigitChar (c.toNat / 16))) * 16 +
          hexDigitVal (hexDigitChar (c.toNat % 16)) = c.toNat := by
        rw [hexDigitVal_hexDigitChar _ hdiv, hexDigitVal_hexDigitChar _ hmod]
        have h0 : hexDigitVal '0' = 0 := by decide
        rw [h0]
        omega
      have hc : Char.ofNat (((hexDigitVal '0' * 16 + hexDigitVal '0') * 16 +
          hexDigitVal (hexDigitChar (c.toNat / 16))) * 16 +
          hexDigitVal (hexDigitChar (c.toNat % 16))) = c := by
        rw [hval]; exact Char.ofNat_toNat c
      rw [show escapeChar c = ['\\', 'u', '0', '0', hexDigitChar (c.toNat / 16),
          hexDigitChar (c.toNat % 16)] by
        simp [escapeChar, h1, h2, h3, h4, h5, h6, h7, h8]]
      rw [parseStringBody.eq_def]
      simp [isHexDigitCh_hexDigitChar _ hdiv, isHexDigitCh_hexDigitChar _ hmod,
        consFirst, ih]
      exact ⟨by decide, hc⟩
    · rw [show escapeChar c = [c] by simp [escapeChar, h1, h2, h3, h4, h5, h6, h7, h8]]
      rw [parseStringBody.eq_def]
      simp [h1, h2, consFirst, ih]

theorem parseItemsAfter_serial (l : List (List Char)) :
    ∀ (fuel : Nat) (tail : List Char), l.length ≤ fuel →
      parseItemsAfter fuel
        ((l.map (fun t => ',' :: quoteString t)).flatten ++ ']' :: tail) =
        some (l, tail) := by
  induction l with
  | nil => intro fuel tail _; simp [parseItemsAfter]
  | cons s ss ih =>
    intro fuel tail hfuel
    match fuel with
    | 0 => simp at hfuel
    | fuel' + 1 =>
      have hss : ss.length ≤ fuel' := by simp at hfuel; omega
      have harr : ((s :: ss).map (fun t => ',' :: quoteString t)).flatten ++
          ']' :: tail =
          ',' :: '"' :: (escapeString s ++ '"' ::
            ((ss.map (fun t => ',' :: quoteString t)).flatten ++ ']' :: tail)) := by
        simp [quoteString]
      rw [harr]
      simp [parseItemsAfter, parseStringBody_escape, ih fuel' tail hss]

theorem serial_length_ge (ss : List (List Char)) :
    ss.length ≤ ((ss.map (fun t => ',' :: quoteString t)).flatten).length := by
  induction ss with
  | nil => simp
  | cons s rest ih =>
    simp only [List.map_cons, List.flatten_cons, List.length_append,
      List.length_cons]
    omega

theorem parseStringList_stringify (l : List (List Char)) :
    parseStringList (stringifyStringList l) = some l := by
  match l with
  | [] => simp [stringifyStringList, serializeItems, parseStringList]
  | s :: ss =>
    have harr : stringifyStringList (s :: ss) =
        '[' :: '"' :: (escapeString s ++ '"' ::
          ((ss.map (fun t => ',' :: quoteString t)).flatten ++ ']' :: [])) := by
      simp [stringifyStringList, serializeItems, quoteString]
    rw [harr]
    have hlen := serial_length_ge ss
    rw [List.length_flatten, List.map_map] at hlen
    simp [parseStringList, parseStringBody_escape]
    rw [parseItemsAfter_serial ss ((escapeString s).length +
      ((List.map (List.length ∘ fun t => ',' :: quoteString t) ss).sum + 1 + 1) + 1 + 1)
      [] (by omega)]
    simp

theorem stringify_mk_ne_empty (l : List (List Char)) :
    String.mk (stringifyStringList l) ≠ "" := by
  intro h
  have h2 := congrArg String.toList h
  simp [stringifyStringList] at h2

theorem loadBookmarks_save (st : Storage) (S : List String) :
    loadBookmarks (setItem st "bookmarks"
      (String.mk (stringifyStringList (S.map String.toList)))) = S := by
  have hmk : ∀ t : List String, (t.map String.toList).map String.mk = t := by
    intro t
    rw [List.map_map]
    have : String.mk ∘ String.toList = id := by funext s; rfl
    rw [this, List.map_id]
  simp [loadBookmarks, getItem_setItem, stringify_mk_ne_empty,
    show (String.mk (stringifyStringList (S.map String.toList))).toList =
      stringifyStringList (S.map String.toList) from rfl,
    parseStringList_stringify, hmk]

/-! ## Helper lemmas about the reducers -/

theorem contains_addBookmark (s : BookmarksState) (a : String) (t : Int) :
    (addBookmark s a t).items.contains a = true := by
  by_cases h : a ∈ s.items
  · simp [addBookmark, h]
  · simp [addBookmark, h]

theorem nodup_addBookmark (s : BookmarksState) (a : String) (t : Int)
    (h : s.items.Nodup) : (addBookmark s a t).items.Nodup := by
  by_cases hc : a ∈ s.items
  · simpa [addBookmark, hc] using h
  · simp [addBookmark, hc, List.nodup_append, h]

/-- A sequence of `addBookmark` dispatches (each with its own timestamp). -/
def applyAdds (s : BookmarksState) (ops : List (String × Int)) : BookmarksState :=
  ops.foldl (fun st op => addBookmark st op.1 op.2) s

theorem nodup_applyAdds (ops : List (String × Int)) :
    ∀ s : BookmarksState, s.items.Nodup → (applyAdds s ops).items.Nodup := by
  induction ops with
  | nil => intro s h; exact h
  | cons op rest ih =>
    intro s h
    exact ih (addBookmark s op.1 op.2) (nodup_addBookmark s op.1 op.2 h)

/-! ## Claim theorems -/

/-- C6 (confirmed): serialization round-trip for bookmarks — for every
bookmark list `S`, loading bookmarks after saving `S` (with a working
write) returns the same ids in the same order. -/
theorem bookmarks_roundtrip (st : Storage) (S : List String) :
    (saveBookmarks st S false).map loadBookmarks = Except.ok S := by
  simp [saveBookmarks, asyncSetItem, Except.map, loadBookmarks_save]

/-- C1 counterexample: `handleBookmarkToggle "a1"` on an empty store makes
the in-memory set contain `a1`, but writes nothing to the backing storage,
so reloading the store from the same backing data (a process restart)
yields `contains("a1") == false` — refuting the claim that every bookmark
mutation is persisted before the operation returns. -/
theorem addBookmark_not_persisted_cx :
    (handleBookmarkToggleApp (initialState, ([] : Storage)) "a1" 5).1.items.contains "a1"
      = true ∧
    (handleBookmarkToggleApp (initialState, ([] : Storage)) "a1" 5).2 = ([] : Storage) ∧
    (reloadFromStorage
      (handleBookmarkToggleApp (initialState, ([] : Storage)) "a1" 5).2 6).items.contains "a1"
      = false :=
  ⟨rfl, rfl, rfl⟩

/-- C1 amended: `addBookmark` (and the screens' `handleBookmarkToggle`,
which dispatches only the synchronous reducers) mutates the in-memory
state only and leaves the persistent store untouched; the updated set
reaches disk only when `saveBookmarksAsync` is dispatched with it, after
which a reload does yield `contains(articleId) == true`. -/
theorem addBookmark_persistence_amended (s : BookmarksState) (st : Storage)
    (articleId : String) (t1 t3 : Int) :
    (handleBookmarkToggleApp (s, st) articleId t1).2 = st ∧
    (saveBookmarksAsync st (addBookmark s articleId t1).items false).1 =
      ThunkResult.fulfilled (addBookmark s articleId t1).items ∧
    (reloadFromStorage
      (saveBookmarksAsync st (addBookmark s articleId t1).items false).2 t3).items.contains
      articleId = true := by
  refine ⟨rfl, ?_, ?_⟩
  · simp [saveBookmarksAsync, saveBookmarks, asyncSetItem]
  · show (reloadFromStorage (setItem st "bookmarks"
      (String.mk (stringifyStringList
        ((addBookmark s articleId t1).items.map String.toList)))) t3).items.contains
      articleId = true
    show (loadBookmarks (setItem st "bookmarks"
      (String.mk (stringifyStringList
        ((addBookmark s articleId t1).items.map String.toList))))).contains
      articleId = true
    rw [loadBookmarks_save]
    exact contains_addBookmark s articleId t1

/-- C2 counterexample: with the in-memory set already mutated to `["a1"]`,
a save whose underlying write fails still fulfils (`saveBookmarks` swallows
the error), the slice keeps `items = ["a1"]` with `error = none`, while the
backing storage still holds the old empty set — memory and disk diverge
silently, refuting the rollback-and-report claim. -/
theorem save_failure_silent_cx :
    (saveBookmarksAsync [("bookmarks", "[]")] ["a1"] true).1 =
      ThunkResult.fulfilled ["a1"] ∧
    (saveBookmarksAsync [("bookmarks", "[]")] ["a1"] true).2 =
      [("bookmarks", "[]")] ∧
    (applySaveResult
      (applySavePending
        { items := ["a1"], isLoading := false, error := none, lastUpdated := some 5 })
      (saveBookmarksAsync [("bookmarks", "[]")] ["a1"] true).1 7).error = none ∧
    (applySaveResult
      (applySavePending
        { items := ["a1"], isLoading := false, error := none, lastUpdated := some 5 })
      (saveBookmarksAsync [("bookmarks", "[]")] ["a1"] true).1 7).items = ["a1"] ∧
    loadBookmarks (saveBookmarksAsync [("bookmarks", "[]")] ["a1"] true).2 = [] :=
  ⟨rfl, rfl, rfl, rfl, rfl⟩

/-- C2 amended: when the underlying persistence write fails,
`saveBookmarks` catches and swallows the error, so `saveBookmarksAsync`
fulfils with the requested list: the backing storage is left with its old
contents, the slice installs `items = bookmarks`, and the error field is
left as it was (never set) — no rollback and no failure report happen. -/
theorem save_failure_semantics_amended (st : Storage) (s : BookmarksState)
    (bookmarks : List String) (now : Int) :
    (saveBookmarksAsync st bookmarks true).1 = ThunkResult.fulfilled bookmarks ∧
    (saveBookmarksAsync st bookmarks true).2 = st ∧
    (applySaveResult (applySavePending s)
      (saveBookmarksAsync st bookmarks true).1 now).error = none ∧
    (applySaveResult (applySavePending s)
      (saveBookmarksAsync st bookmarks true).1 now).items = bookmarks := by
  refine ⟨rfl, rfl, rfl, rfl⟩

/-- C3 (confirmed): TTL correctness of the cache read — a `loadCachedNews`
of an entry created at `createdAt` returns the stored payload exactly when
`now - createdAt` is at most the 24-hour TTL, and absent when it exceeds
it; an expired payload is never returned as a hit. -/
theorem loadCachedNews_ttl_correct {α : Type} (d : α) (createdAt now : Int) :
    (loadCachedNews (some ⟨d, createdAt⟩) now).1 =
      if now - createdAt ≤ newsCacheTTL then some d else none := by
  show (if now - createdAt > newsCacheTTL then none else some d) = _
  split_ifs with h1 h2 <;> first | rfl | omega

/-- C4 counterexample: a read of an expired entry returns absent but leaves
the entry in the backing storage untouched — refuting the claim that an
expired get deletes the cache key from the persistent store. -/
theorem expired_entry_not_deleted_cx :
    loadCachedNews (α := String) (some ⟨"articles", 0⟩) (newsCacheTTL + 1) =
      (none, some ⟨"articles", 0⟩) := by
  show ((if newsCacheTTL + 1 - 0 > newsCacheTTL then none else some "articles"),
    (some ⟨"articles", 0⟩ : CacheSlot String)) = _
  rw [if_pos (by omega)]

/-- C4 amended: a `loadCachedNews` of an expired key returns absent but
performs no deletion — the read leaves the backing cache slot exactly as it
found it (the function never removes anything from storage). -/
theorem loadCachedNews_preserves_storage {α : Type} (slot : CacheSlot α)
    (now : Int) : (loadCachedNews slot now).2 = slot := by
  cases slot <;> rfl

/-- C5 counterexample: with a stale (expired) cached entry present, a
failed fetch still surfaces the fetch error (`getHeadlines` propagates it
unchanged) and the stale payload is not returned (`loadCachedNews` yields
absent for it) — refuting the stale-cache-fallback claim. -/
theorem no_stale_fallback_cx :
    getHeadlines (Except.error "FetchError") (newsCacheTTL + 1) =
      Except.error "FetchError" ∧
    (loadCachedNews (α := List String) (some ⟨["staleArticle"], 0⟩)
      (newsCacheTTL + 1)).1 = none := by
  constructor
  · rfl
  · show (if newsCacheTTL + 1 - 0 > newsCacheTTL then none
      else some ["staleArticle"]) = none
    rw [if_pos (by omega)]

/-- C5 amended: when the remote fetch fails the error is always propagated
— the news fetch path performs no cache fallback, and an expired cached
entry can never be served anyway because `loadCachedNews` returns absent
for it. -/
theorem fetch_error_propagates_amended (e : String) (now ts : Int)
    (d : List String) (h : now - ts > newsCacheTTL) :
    getHeadlines (Except.error e) now = Except.error e ∧
    (loadCachedNews (some ⟨d, ts⟩) now).1 = none := by
  constructor
  · rfl
  · show (if now - ts > newsCacheTTL then none else some d) = none
    rw [if_pos h]

/-- C5 amended witness: the amended claim at a concrete expired entry. -/
theorem fetch_error_propagates_amended_witness :
    getHeadlines (Except.error "FetchError") (newsCacheTTL + 1) =
      Except.error "FetchError" ∧
    (loadCachedNews (some ⟨["cachedArticle"], 0⟩) (newsCacheTTL + 1)).1 = none :=
  fetch_error_propagates_amended "FetchError" (newsCacheTTL + 1) 0
    ["cachedArticle"] (by omega)

/-- C7 (confirmed): bookmark add is idempotent and preserves the
no-duplicate invariant — a second add of the same id is a complete no-op
(the state is unchanged, which is how the reducer, which returns no value,
realises `add` returning false), the id occurs exactly once after an add,
and any sequence of adds keeps the items free of duplicates. -/
theorem addBookmark_idempotent (s : BookmarksState) (articleId : String)
    (t1 t2 : Int) (ops : List (String × Int)) (h : s.items.Nodup) :
    addBookmark (addBookmark s articleId t1) articleId t2 =
      addBookmark s articleId t1 ∧
    (addBookmark s articleId t1).items.count articleId = 1 ∧
    (applyAdds s ops).items.Nodup := by
  refine ⟨?_, ?_, nodup_applyAdds ops s h⟩
  · have hc := contains_addBookmark s articleId t1
    show (if (addBookmark s articleId t1).items.contains articleId
      then addBookmark s articleId t1 else _) = addBookmark s articleId t1
    rw [hc]
    simp
  · by_cases hm : articleId ∈ s.items
    · have : (addBookmark s articleId t1).items = s.items := by
        simp [addBookmark, hm]
      rw [this]
      exact List.count_eq_one_of_mem h hm
    · have : (addBookmark s articleId t1).items = s.items ++ [articleId] := by
        simp [addBookmark, hm]
      rw [this]
      simp [List.count_append, List.count_eq_zero.mpr hm]

/-- C7 witness: the idempotence theorem applied at the empty initial state. -/
theorem addBookmark_idempotent_witness :
    initialState.items.Nodup ∧
    (addBookmark (addBookmark initialState "a1" 1) "a1" 2 =
       addBookmark initialState "a1" 1 ∧
     (addBookmark initialState "a1" 1).items.count "a1" = 1 ∧
     (applyAdds initialState [("a1", 3), ("a2", 4)]).items.Nodup) :=
  ⟨List.nodup_nil, addBookmark_idempotent initialState "a1" 1 2
    [("a1", 3), ("a2", 4)] List.nodup_nil⟩

/-- C8 counterexample: two fetched articles that both lack a usable `url`
(the empty string, falsy in `article.url || fallback`) share the same
`url` yet are assigned distinct positional ids — refuting the claim that
equal urls always yield equal ids. -/
theorem same_url_same_id_cx :
    ¬ (∀ a ∈ transformHeadlines [⟨"", "t1"⟩, ⟨"", "t2"⟩] 0,
       ∀ b ∈ transformHeadlines [⟨"", "t1"⟩, ⟨"", "t2"⟩] 0,
       a.url = b.url → a.id = b.id) := by
  intro h
  have hlist : transformHeadlines [⟨"", "t1"⟩, ⟨"", "t2"⟩] 0 =
      [{ url := "", title := "t1", id := "article-0-0" },
       { url := "", title := "t2", id := "article-1-0" }] := rfl
  have h2 := h { url := "", title := "t1", id := "article-0-0" }
    (by rw [hlist]; simp)
    { url := "", title := "t2", id := "article-1-0" }
    (by rw [hlist]; simp) rfl
  simp at h2

/-- Helper: an article produced by the indexed id-assigning map keeps its
raw `url`, and when that url is nonempty its id is exactly that url. -/
theorem id_eq_url_of_mem (tag : String) (now : Int) :
    ∀ (i : Nat) (articles : List RawArticle) (a : Article),
      a ∈ mapWithIndex (assignId tag now) i articles →
      a.url ≠ "" → a.id = a.url := by
  intro i articles
  induction articles generalizing i with
  | nil => intro a ha; simp [mapWithIndex] at ha
  | cons r rest ih =>
    intro a ha hne
    simp only [mapWithIndex, List.mem_cons] at ha
    cases ha with
    | inl he =>
      subst he
      simp only [assignId] at hne ⊢
      simp [hne]
    | inr hr => exact ih (i + 1) a hr hne

/-- C8 amended: two articles produced by the same `transformResponse` call
that share the same nonempty `url` are assigned the same `id` (articles
with an empty/absent url fall back to distinct positional ids).  Stated
over `assignId` with an arbitrary tag, which covers the getHeadlines,
searchNews and getNewsBySource endpoints alike. -/
theorem same_nonempty_url_same_id (tag : String) (now : Int)
    (articles : List RawArticle) (a b : Article)
    (ha : a ∈ mapWithIndex (assignId tag now) 0 articles)
    (hb : b ∈ mapWithIndex (assignId tag now) 0 articles)
    (hurl : a.url = b.url) (hne : a.url ≠ "") : a.id = b.id := by
  have hida := id_eq_url_of_mem tag now 0 articles a ha hne
  have hidb := id_eq_url_of_mem tag now 0 articles b hb (hurl ▸ hne)
  rw [hida, hidb, hurl]

/-- C8 amended witness: two articles sharing the nonempty url `https://x`
receive the same id. -/
theorem same_nonempty_url_same_id_witness :
    ({ url := "https://x", title := "t1", id := "https://x" } : Article) ∈
      mapWithIndex (assignId "article-" 0) 0 [⟨"https://x", "t1"⟩, ⟨"https://x", "t2"⟩] ∧
    ({ url := "https://x", title := "t2", id := "https://x" } : Article) ∈
      mapWithIndex (assignId "article-" 0) 0 [⟨"https://x", "t1"⟩, ⟨"https://x", "t2"⟩] ∧
    ({ url := "https://x", title := "t1", id := "https://x" } : Article).id =
      ({ url := "https://x", title := "t2", id := "https://x" } : Article).id :=
  ⟨by simp [mapWithIndex, assignId], by simp [mapWithIndex, assignId],
    same_nonempty_url_same_id "article-" 0 [⟨"https://x", "t1"⟩, ⟨"https://x", "t2"⟩]
      { url := "https://x", title := "t1", id := "https://x" }
      { url := "https://x", title := "t2", id := "https://x" }
      (by simp [mapWithIndex, assignId]) (by simp [mapWithIndex, assignId])
      rfl (by simp)⟩

/-- C9 (confirmed): reconciliation join correctness — for every article in
the list a screen renders, the `isBookmarked` flag its card receives
equals the bookmark selector's membership test for that article's id
against the current slice state, whatever article list was supplied. -/
theorem reconciliation_join_correct (s : BookmarksState)
    (articles : List Article) (p : NewsCardProps)
    (hp : p ∈ articles.map (renderNewsItem s.items)) :
    p.isBookmarked = selectIsBookmarked s p.article.id := by
  rcases List.mem_map.mp hp with ⟨a, _, rfl⟩
  rfl

/-- C9 witness: the join theorem at a one-article list whose id is
bookmarked. -/
theorem reconciliation_join_correct_witness :
    (⟨⟨"u", "t", "u"⟩, true⟩ : NewsCardProps) ∈
      ([⟨"u", "t", "u"⟩] : List Article).map
        (renderNewsItem (⟨["u"], false, none, none⟩ : BookmarksState).items) ∧
    (⟨⟨"u", "t", "u"⟩, true⟩ : NewsCardProps).isBookmarked =
      selectIsBookmarked (⟨["u"], false, none, none⟩ : BookmarksState) "u" :=
  ⟨by simp [renderNewsItem, isBookmarkedFn],
    reconciliation_join_correct ⟨["u"], false, none, none⟩
      [⟨"u", "t", "u"⟩] ⟨⟨"u", "t", "u"⟩, true⟩
      (by simp [renderNewsItem, isBookmarkedFn])⟩

/-- C10 (confirmed): removing an id that is not in the bookmark set leaves
the items sequence unchanged while still stamping `lastUpdated` with the
current time; adding an id that is already present changes nothing at all
(neither items nor `lastUpdated`). -/
theorem remove_absent_add_present_frame (s s2 : BookmarksState)
    (a b : String) (t1 t2 : Int) (ha : a ∉ s.items) (hb : b ∈ s2.items) :
    removeBookmark s a t1 = { s with lastUpdated := some t1 } ∧
    addBookmark s2 b t2 = s2 := by
  constructor
  · have hf : s.items.filter (fun id => id ≠ a) = s.items :=
      List.filter_eq_self.mpr (by intro x hx; simp; rintro rfl; exact ha hx)
    unfold removeBookmark
    rw [hf]
  · simp [addBookmark, hb]

/-- C10 witness: the frame theorem at concrete states — removing the
absent `y` from `[x]` and re-adding the present `b1` to `[b1]`. -/
theorem remove_absent_add_present_frame_witness :
    ("y" ∉ (⟨["x"], false, none, some 1⟩ : BookmarksState).items) ∧
    ("b1" ∈ (⟨["b1"], false, none, some 2⟩ : BookmarksState).items) ∧
    (removeBookmark ⟨["x"], false, none, some 1⟩ "y" 9 =
       (⟨["x"], false, none, some 9⟩ : BookmarksState) ∧
     addBookmark ⟨["b1"], false, none, some 2⟩ "b1" 9 =
       (⟨["b1"], false, none, some 2⟩ : BookmarksState)) :=
  ⟨by decide, by decide,
    remove_absent_add_present_frame ⟨["x"], false, none, some 1⟩
      ⟨["b1"], false, none, some 2⟩ "y" "b1" 9 9 (by decide) (by decide)⟩

end NewsBrief
